import Mathlib

/-!
# Verification of the readability-rust content-extraction core

A shallow embedding of the scoring, selection, readerable-heuristic and
text-utility code of the `readability-rust` crate (`src/lib.rs`,
`src/utils.rs`, `src/regexps.rs`), together with theorems settling the
frozen claims about its specification.

Modelling conventions:
* Rust `f64` scores are modelled as exact rationals (`ℚ`); every score
  operation the code performs (`+`, `*`, `/`, `min`, comparisons) is
  mirrored on `ℚ`.
* Rust strings are modelled through their character lists; `str::len`
  (UTF-8 byte length) is modelled by summing `Char.utf8Size`.
* The parse tree handed to the core by the external HTML parser is
  modelled by the inductive type `Node`.
* The case-insensitive literal-alternation regexes of `regexps.rs` are
  modelled as substring tests over the lower-cased input.
-/

namespace ReadabilityRust

/-! ## Whitespace and string primitives (`utils.rs`) -/

/-- Code points with the Unicode `White_Space` property, the set recognised
by Rust's `char::is_whitespace`. -/
def rustWhitespaceCodes : List Nat :=
  [0x09, 0x0A, 0x0B, 0x0C, 0x0D, 0x20, 0x85, 0xA0, 0x1680,
   0x2000, 0x2001, 0x2002, 0x2003, 0x2004, 0x2005, 0x2006, 0x2007,
   0x2008, 0x2009, 0x200A, 0x2028, 0x2029, 0x202F, 0x205F, 0x3000]

/-- Rust `char::is_whitespace`. -/
def isWS (c : Char) : Bool := rustWhitespaceCodes.contains c.toNat

/-- The character loop of `utils::normalize_whitespace` (utils.rs:59-78):
walk the characters keeping a `prev_was_space` flag, emitting a single `' '`
for every maximal run of whitespace. -/
def normLoop : List Char → Bool → List Char
  | [], _ => []
  | c :: rest, prev =>
    if isWS c then
      if prev then normLoop rest true else ' ' :: normLoop rest true
    else c :: normLoop rest false

/-- Rust `str::trim`: remove leading and trailing whitespace. -/
def trimChars (l : List Char) : List Char :=
  ((l.dropWhile isWS).reverse.dropWhile isWS).reverse

/-- `utils::normalize_whitespace`: collapse whitespace runs to single spaces,
then trim (`result.trim().to_string()`). -/
def normalizeWhitespace (l : List Char) : List Char := trimChars (normLoop l false)

/-- String wrapper for `utils::normalize_whitespace`. -/
def normalizeWhitespaceStr (s : String) : String := ⟨normalizeWhitespace s.data⟩

/-- String wrapper for Rust `str::trim`. -/
def trimStr (s : String) : String := ⟨trimChars s.data⟩

/-- No two adjacent characters are both whitespace. -/
def NoTwoWS (l : List Char) : Prop :=
  List.Chain' (fun a b => isWS a = false ∨ isWS b = false) l

/-! ## Pattern library (`regexps.rs`)

The regexes used by the claims are case-insensitive alternations of literal
substrings (plus, in `negative`, four anchored alternatives for `hid`).
They are modelled as substring tests over the ASCII-lower-cased input. -/

/-- Does `hay` start with `pat`? -/
def startsWithL : List Char → List Char → Bool
  | _, [] => true
  | [], _ :: _ => false
  | a :: as, b :: bs => a = b && startsWithL as bs

/-- Does `hay` contain `pat` as a contiguous substring? -/
def containsSub : List Char → List Char → Bool
  | [], pat => startsWithL [] pat
  | a :: t, pat => startsWithL (a :: t) pat || containsSub t pat

/-- ASCII lower-casing of a string's characters (the case folding relevant to
the library's ASCII patterns). -/
def lowerStr (s : String) : List Char := s.data.map Char.toLower

/-- Does the lower-cased input contain some pattern of `pats` as a substring?
Models `Regex::is_match` for a `(?i)` alternation of literals. -/
def strMatch (pats : List String) (s : String) : Bool :=
  pats.any (fun p => containsSub (lowerStr s) p.data)

/-- Alternatives of the `unlikely_candidates` regex (regexps.rs:34-36). -/
def unlikelyPats : List String :=
  ["-ad-", "ai2html", "banner", "breadcrumbs", "combx", "comment", "community",
   "cover-wrap", "disqus", "extra", "footer", "gdpr", "header", "legends",
   "menu", "related", "remark", "replies", "rss", "shoutbox", "sidebar",
   "skyscraper", "social", "sponsor", "supplemental", "ad-break", "agegate",
   "pagination", "pager", "popup", "yom-remote"]

/-- Alternatives of the `ok_maybe_its_candidate` regex (regexps.rs:38-40). -/
def okMaybePats : List String :=
  ["and", "article", "body", "column", "content", "main", "mathjax", "shadow"]

/-- Alternatives of the `positive` regex (regexps.rs:42-44). -/
def positivePats : List String :=
  ["article", "body", "content", "entry", "hentry", "h-entry", "main", "page",
   "pagination", "post", "text", "blog", "story"]

/-- Unanchored alternatives of the `negative` regex (regexps.rs:46-48). -/
def negativePlainPats : List String :=
  ["-ad-", "hidden", "banner", "combx", "comment", "com-", "contact", "footer",
   "gdpr", "masthead", "media", "meta", "outbrain", "promo", "related",
   "scroll", "share", "shoutbox", "sidebar", "skyscraper", "sponsor",
   "shopping", "tags", "widget"]

/-- Does `l` end with `pat`? -/
def endsWithL (l pat : List Char) : Bool := startsWithL l.reverse pat.reverse

/-- `regexps::is_unlikely_candidate` (regexps.rs:129-133): matches the
unlikely-candidate vocabulary and not the override vocabulary. -/
def isUnlikelyCandidateStr (s : String) : Bool :=
  strMatch unlikelyPats s && !strMatch okMaybePats s

/-- `regexps::has_positive_indicators` (regexps.rs:135-138). -/
def hasPositiveIndicators (s : String) : Bool := strMatch positivePats s

/-- `regexps::has_negative_indicators` (regexps.rs:140-143): the plain
alternatives plus the four anchored `hid` alternatives
`^hid$`, ` hid$`, ` hid `, `^hid `. -/
def hasNegativeIndicators (s : String) : Bool :=
  strMatch negativePlainPats s ||
    (lowerStr s == "hid".data) ||
    endsWithL (lowerStr s) " hid".data ||
    containsSub (lowerStr s) " hid ".data ||
    startsWithL (lowerStr s) "hid ".data

/-- The nine comma-class characters of the `commas` regex (regexps.rs:102-104):
Latin, Arabic, CJK and vertical/archaic comma variants. -/
def commaChars : List Char :=
  [Char.ofNat 0x002C, Char.ofNat 0x060C, Char.ofNat 0xFE50, Char.ofNat 0xFE10,
   Char.ofNat 0xFE11, Char.ofNat 0x2E41, Char.ofNat 0x2E34, Char.ofNat 0x2E32,
   Char.ofNat 0xFF0C]

/-- `regexps::count_commas` (regexps.rs:227-230): each comma-class character is
one regex match. -/
def countCommas (s : String) : Nat :=
  s.data.countP (fun c => commaChars.contains c)

/-! ## The parse tree

The core consumes a parse tree built by an external HTML parser. A node is
either a text node or an element with a tag name (lower-cased by the
external parser), an attribute list and child nodes. -/

inductive Node where
  | text (s : String)
  | elem (tag : String) (attrs : List (String × String)) (children : List Node)

mutual
def Node.decEq : (a b : Node) → Decidable (a = b)
  | .text s, .text t =>
    if h : s = t then .isTrue (h ▸ rfl)
    else .isFalse (fun hh => h (Node.text.inj hh))
  | .text _, .elem _ _ _ => .isFalse (fun hh => Node.noConfusion hh)
  | .elem _ _ _, .text _ => .isFalse (fun hh => Node.noConfusion hh)
  | .elem t1 a1 c1, .elem t2 a2 c2 =>
    if h1 : t1 = t2 then
      if h2 : a1 = a2 then
        match decEqNodeList c1 c2 with
        | .isTrue h3 => .isTrue (by rw [h1, h2, h3])
        | .isFalse h3 => .isFalse (fun hh => h3 (Node.elem.inj hh).2.2)
      else .isFalse (fun hh => h2 (Node.elem.inj hh).2.1)
    else .isFalse (fun hh => h1 (Node.elem.inj hh).1)

def decEqNodeList : (a b : List Node) → Decidable (a = b)
  | [], [] => .isTrue rfl
  | [], _ :: _ => .isFalse (fun h => List.noConfusion h)
  | _ :: _, [] => .isFalse (fun h => List.noConfusion h)
  | x :: xs, y :: ys =>
    match Node.decEq x y, decEqNodeList xs ys with
    | .isTrue h1, .isTrue h2 => .isTrue (by rw [h1, h2])
    | .isFalse h1, _ => .isFalse (fun hh => h1 (List.cons.inj hh).1)
    | _, .isFalse h2 => .isFalse (fun hh => h2 (List.cons.inj hh).2)
end

instance : DecidableEq Node := Node.decEq

/-- Tag name of an element node (`element.value().name()`); `""` for text. -/
def Node.tagName : Node → String
  | .text _ => ""
  | .elem t _ _ => t

/-- Attribute lookup, `element.value().attr(name)`. -/
def Node.attr : Node → String → Option String
  | .text _, _ => none
  | .elem _ attrs _, name => (attrs.find? (fun p => p.1 == name)).map (·.2)

/-- Is this node an element? -/
def Node.isElem : Node → Bool
  | .text _ => false
  | .elem _ _ _ => true

/-- Rust `str::eq_ignore_ascii_case`. -/
def eqIgnoreAsciiCase (a b : String) : Bool :=
  a.data.map Char.toLower == b.data.map Char.toLower

/-- ASCII upper-casing (`str::to_uppercase` on the ASCII tag names). -/
def upperStr (s : String) : String := ⟨s.data.map Char.toUpper⟩

mutual
/-- The text of every descendant text node, in document order
(`element.text().collect::<Vec<_>>()`). -/
def Node.texts : Node → List String
  | .text s => [s]
  | .elem _ _ cs => textsList cs

def textsList : List Node → List String
  | [] => []
  | n :: ns => n.texts ++ textsList ns
end

/-- Rust `str::len`: UTF-8 byte length. -/
def utf8Len (s : String) : Nat := s.data.foldl (fun a c => a + c.utf8Size) 0

/-- `utils::get_inner_text` (utils.rs:50-57): join the descendant text nodes
with `" "`, normalizing whitespace when asked. `get_inner_text_from_ref`
(lib.rs:824-832) computes the same function: replacing each maximal
whitespace run by a single space and trimming coincides with
`normalize_whitespace`. -/
def innerText (n : Node) (normalizeSpaces : Bool) : String :=
  let t := String.intercalate " " n.texts
  if normalizeSpaces then normalizeWhitespaceStr t else t

mutual
/-- `node.descendants()` of ego-tree: this node and all its descendants,
in document order. -/
def Node.descendants : Node → List Node
  | .text s => [.text s]
  | .elem t a cs => .elem t a cs :: descList cs

def descList : List Node → List Node
  | [] => []
  | n :: ns => n.descendants ++ descList ns
end

mutual
/-- All element nodes of the subtree, in document (pre-order) order; models
iterating `document.select(..)` before filtering by the selector. -/
def Node.elemsIn : Node → List Node
  | .text _ => []
  | .elem t a cs => .elem t a cs :: elemsList cs

def elemsList : List Node → List Node
  | [] => []
  | n :: ns => n.elemsIn ++ elemsList ns
end

/-- `utils::get_link_density` (utils.rs:307-326): total descendant-anchor text
length over total text length, `0` for a subtree with no text. -/
def getLinkDensity (n : Node) : ℚ :=
  let total := utf8Len (innerText n false)
  if total = 0 then 0
  else
    let links := n.descendants.filter (fun d => d.isElem && eqIgnoreAsciiCase d.tagName "a")
    let linkLen := (links.map (fun d => utf8Len (innerText d false))).sum
    (linkLen : ℚ) / (total : ℚ)

/-! ## Options and flags (lib.rs:69-127) -/

structure ReadabilityFlags where
  stripUnlikelys : Bool
  weightClasses : Bool
  cleanConditionally : Bool
deriving Repr, DecidableEq

/-- `ReadabilityFlags::default`. -/
def defaultFlags : ReadabilityFlags :=
  { stripUnlikelys := true, weightClasses := true, cleanConditionally := true }

structure ReadabilityOptions where
  debug : Bool
  maxElemsToParse : Nat
  nbTopCandidates : Nat
  charThreshold : Nat
  keepClasses : Bool
  disableJsonLd : Bool
  linkDensityModifier : ℚ
  flags : ReadabilityFlags
deriving Repr, DecidableEq

/-- `ReadabilityOptions::default` (lib.rs:112-127). -/
def defaultOptions : ReadabilityOptions :=
  { debug := false, maxElemsToParse := 0, nbTopCandidates := 5,
    charThreshold := 25, keepClasses := false, disableJsonLd := false,
    linkDensityModifier := 1, flags := defaultFlags }

/-! ## Candidate initialization (C4) -/

/-- The contribution of one attribute value in `get_class_weight`
(lib.rs:420-449): −25 on negative indicators, +25 on positive indicators,
both cumulative. -/
def attrWeight : Option String → ℚ
  | none => 0
  | some v =>
    (if hasNegativeIndicators v then (-25 : ℚ) else 0) +
    (if hasPositiveIndicators v then (25 : ℚ) else 0)

/-- `Readability::get_class_weight` (lib.rs:420-449). -/
def getClassWeight (flags : ReadabilityFlags) (n : Node) : ℚ :=
  if !flags.weightClasses then 0
  else attrWeight (n.attr "class") + attrWeight (n.attr "id")

/-- The tag-type adjustment of `initialize_candidate_score` (lib.rs:570-587),
applied to the upper-cased tag name. -/
def tagScoreAdjust (t : String) : ℚ :=
  if t = "DIV" then 5
  else if t ∈ (["PRE", "TD", "BLOCKQUOTE"] : List String) then 3
  else if t ∈ (["ADDRESS", "OL", "UL", "DL", "DD", "DT", "LI", "FORM"] : List String) then -3
  else if t ∈ (["H1", "H2", "H3", "H4", "H5", "H6", "TH"] : List String) then -5
  else 0

/-- `Readability::initialize_candidate_score` (lib.rs:570-587): base 1.0,
the tag-type adjustment, then the class weight. -/
def initializeCandidateScore (flags : ReadabilityFlags) (n : Node) : ℚ :=
  1 + tagScoreAdjust (upperStr n.tagName) + getClassWeight flags n

/-! ## Document traversal with ancestor context

Every element receives a pre-order index; candidate entries are keyed by
element identity (`get_element_id`, lib.rs:565-568, a pointer-derived unique
key — modelled here by the pre-order index, which is likewise unique per
element). -/

structure Ctx where
  id : Nat
  node : Node
  parent : Option (Nat × Node)
  gp : Option (Nat × Node)
deriving DecidableEq

mutual
/-- Pre-order walk assigning ids and recording, for each element, its parent
element and grandparent element (as `element.parent()` / `parent.parent()`
wrapped by `ElementRef::wrap`). -/
def walkNode (n : Node) (i : Nat) (p g : Option (Nat × Node)) : Nat × List Ctx :=
  match n with
  | .text _ => (i, [])
  | .elem t a cs =>
    let r := walkList cs (i + 1) (some (i, .elem t a cs)) p
    (r.1, ⟨i, .elem t a cs, p, g⟩ :: r.2)

def walkList (ns : List Node) (i : Nat) (p g : Option (Nat × Node)) : Nat × List Ctx :=
  match ns with
  | [] => (i, [])
  | n :: rest =>
    let r := walkNode n i p g
    let r2 := walkList rest r.1 p g
    (r2.1, r.2 ++ r2.2)
end

/-- All element contexts of the document, in document order. -/
def ctxs (root : Node) : List Ctx := (walkNode root 0 none none).2

/-- `Readability::is_unlikely_candidate` on an element (lib.rs:530-563):
navigation tags are filtered, structural tags never are, then the combined
class/id string is tested against the unlikely pattern (with the positive
override), then unlikely ARIA roles are filtered. -/
def isUnlikelyElem (n : Node) : Bool :=
  if n.tagName ∈ (["nav", "aside", "header", "footer"] : List String) then true
  else if n.tagName ∈ (["body", "a", "table", "tbody", "tr", "td", "th",
      "article", "section"] : List String) then false
  else
    let classAndId := ((n.attr "class").getD "") ++ " " ++ ((n.attr "id").getD "")
    if isUnlikelyCandidateStr classAndId && !hasPositiveIndicators classAndId then true
    else
      match n.attr "role" with
      | some r => r ∈ (["menu", "menubar", "complementary", "navigation",
          "alert", "alertdialog", "dialog"] : List String)
      | none => false

/-! ## Candidate scoring engine (`find_and_score_candidates`, lib.rs:451-528) -/

/-- The candidate map: element id, element, running content score. -/
abbrev CandMap := List (Nat × Node × ℚ)

/-- Score of the candidate keyed by `i`. -/
def candScore (m : CandMap) (i : Nat) : Option ℚ :=
  (m.find? (fun e => e.1 == i)).map (fun e => e.2.2)

/-- Update the score of the candidate keyed by `i`
(`candidate_map.get_mut`). -/
def updateCand (m : CandMap) (i : Nat) (f : ℚ → ℚ) : CandMap :=
  m.map (fun e => if e.1 == i then (e.1, e.2.1, f e.2.2) else e)

/-- The level-dependent score divisor (lib.rs:510-514): 1 for the parent,
2 for the grandparent, `level * 3` beyond. -/
def divisorQ (level : Nat) : ℚ :=
  if level = 1 then 1 else if level = 2 then 2 else (level : ℚ) * 3

/-- The leaf's content score (lib.rs:497-504): base 1.0, plus one point per
comma-class character of the normalized text, plus one point per 100 bytes of
trimmed text capped at 3. -/
def leafContentScore (n : Node) : ℚ :=
  let text := innerText n true
  let tl := utf8Len (trimStr text)
  1 + (countCommas text : ℚ) + min ((tl : ℚ) / 100) 3

/-- The ancestors nominated by a leaf (lib.rs:467-486): the parent at level 1
and the grandparent at level 2; `none` when the `continue` skips the whole
leaf because a strip-unlikelys check fired. -/
def scoreAncestors (flags : ReadabilityFlags) (c : Ctx) :
    Option (List (Nat × Node × Nat)) :=
  match c.parent with
  | none => some []
  | some (pid, p) =>
    if flags.stripUnlikelys && isUnlikelyElem p then none
    else
      match c.gp with
      | none => some [(pid, p, 1)]
      | some (gid, g) =>
        if flags.stripUnlikelys && isUnlikelyElem g then none
        else some [(pid, p, 1), (gid, g, 2)]

/-- One iteration of the scoring loop (lib.rs:458-518) for the leaf `c`:
skip short leaves, initialize absent ancestor entries, then add the content
score divided by the level divisor to each ancestor's running score. -/
def scoreStep (flags : ReadabilityFlags) (m : CandMap) (c : Ctx) : CandMap :=
  let text := innerText c.node true
  let tl := utf8Len (trimStr text)
  if tl < 25 then m
  else
    match scoreAncestors flags c with
    | none => m
    | some ancestors =>
      let m1 := ancestors.foldl (fun acc a =>
        if (candScore acc a.1).isSome then acc
        else acc ++ [(a.1, a.2.1, initializeCandidateScore flags a.2.1)]) m
      let cs := leafContentScore c.node
      ancestors.foldl (fun acc a => updateCand acc a.1 (fun s => s + cs / divisorQ a.2.2)) m1

/-- The tags of the content-leaf selector `"p, td, pre"` (lib.rs:456). -/
def contentTags : List String := ["p", "td", "pre"]

/-- The content leaves of the document in document order
(`document.select(&content_selector)`). -/
def contentLeaves (root : Node) : List Ctx :=
  (ctxs root).filter (fun c => c.node.tagName ∈ contentTags)

/-- The candidate map after the whole scoring loop, before link-density
scaling. -/
def rawCandidates (flags : ReadabilityFlags) (root : Node) : CandMap :=
  (contentLeaves root).foldl (scoreStep flags) []

/-- `find_and_score_candidates` (lib.rs:451-528): score all leaves, then
scale every candidate's score by `1 - link_density` (lib.rs:520-525). -/
def findAndScoreCandidates (flags : ReadabilityFlags) (root : Node) : CandMap :=
  (rawCandidates flags root).map
    (fun e => (e.1, e.2.1, e.2.2 * (1 - getLinkDensity e.2.1)))

/-- Modelled from the spec (§4.3 step 5 and the `link_density_modifier`
option row): the spec's version of the final scaling, in which the computed
link density is first multiplied by the configured `link_density_modifier`.
The source's `find_and_score_candidates` is compared against this. -/
def findAndScoreCandidatesSpec (opts : ReadabilityOptions) (root : Node) : CandMap :=
  (rawCandidates opts.flags root).map
    (fun e => (e.1, e.2.1, e.2.2 * (1 - getLinkDensity e.2.1 * opts.linkDensityModifier)))

/-- A concrete content leaf: a 32-byte paragraph with one comma. -/
def exLeaf : Node := .elem "p" [] [.text "Hello, this is a test paragraph."]

/-- Its parent `div`. -/
def exParent : Node := .elem "div" [] [exLeaf]

/-- Its grandparent `div`. -/
def exGP : Node := .elem "div" [] [exParent]

/-- The leaf's traversal context inside `exGP`. -/
def exCtx : Ctx := ⟨2, exLeaf, some (1, exParent), some (0, exGP)⟩

/-- A document with a link-bearing candidate: the `div` has 36 bytes of raw
inner text of which 5 are anchor text. -/
def exLinkDoc : Node :=
  .elem "body" []
    [.elem "div" []
      [.elem "p" [] [.text "aaaaaaaaaaaaaaaaaaaaaaaaaaaaaa"],
       .elem "a" [("href", "x")] [.text "bbbbb"]]]

/-- Options with a non-default `link_density_modifier`. -/
def exModOpts : ReadabilityOptions := { defaultOptions with linkDensityModifier := 2 }

/-- The link-bearing `div` of `exLinkDoc`. -/
def exDivNode : Node :=
  .elem "div" []
    [.elem "p" [] [.text "aaaaaaaaaaaaaaaaaaaaaaaaaaaaaa"],
     .elem "a" [("href", "x")] [.text "bbbbb"]]

/-! ## Candidate selection (`select_best_candidate`, lib.rs:593-639) -/

/-- `Readability::calculate_candidate_score` (lib.rs:643-663): the simplified
single-node formula — 0 for under 25 bytes of normalized text, else base 1
plus comma count plus `min(len/100, 3)`; no ancestor propagation, no class
weight. -/
def calculateCandidateScore (n : Node) : ℚ :=
  let text := innerText n true
  if utf8Len text < 25 then 0
  else 1 + (countCommas text : ℚ) + min ((utf8Len text : ℚ) / 100) 3

/-- Does an element match the navigation selector
`"nav, aside, header, footer, [class*='sidebar'], [class*='navigation']"`
(lib.rs:614)? -/
def isNavLike (n : Node) : Bool :=
  n.tagName ∈ (["nav", "aside", "header", "footer"] : List String) ||
  (match n.attr "class" with
   | some c => containsSub c.data "sidebar".data || containsSub c.data "navigation".data
   | none => false)

/-- The element descendants of `n`, excluding `n` itself
(`ElementRef::select` iterates descendants only). -/
def strictDescendants (n : Node) : List Node :=
  match n with
  | .text _ => []
  | .elem _ _ cs => elemsList cs

/-- `parent_element.select(&nav_selector).next().is_some()` (lib.rs:615). -/
def hasNavDescendant (n : Node) : Bool := (strictDescendants n).any isNavLike

/-- The parent element of the element with pre-order id `i`
(`best_candidate.parent()` + `ElementRef::wrap`). -/
def parentOf (root : Node) (i : Nat) : Option (Nat × Node) :=
  ((ctxs root).find? (fun c => c.id == i)).bind (fun c => c.parent)

/-- The stable descending sort of `select_best_candidate` (lib.rs:599-600):
Rust's stable `sort_by` with comparator `b.score.partial_cmp(&a.score)`
produces the unique stable ordering by non-increasing score, which insertion
sort with `b.score ≤ a.score` also produces. -/
def sortCands (cands : CandMap) : CandMap :=
  List.insertionSort (fun a b => b.2.2 ≤ a.2.2) cands

/-- `Readability::select_best_candidate` (lib.rs:593-639): take the
top-scoring candidate; promote to its parent only when the parent has no
navigation-like descendant, more than double the candidate's text, and a
recomputed simplified score exceeding 0.75 of the candidate's score. -/
def selectBestCandidate (root : Node) (cands : CandMap) : Option Node :=
  match sortCands cands with
  | [] => none
  | best :: _ =>
    let bestNode := best.2.1
    let bestScore := best.2.2
    match parentOf root best.1 with
    | none => some bestNode
    | some (_, p) =>
      if hasNavDescendant p then some bestNode
      else if utf8Len (innerText p false) > utf8Len (innerText bestNode false) * 2 then
        if calculateCandidateScore p > bestScore * (3 / 4 : ℚ) then some p
        else some bestNode
      else some bestNode

/-- A selection scenario: a `div` holding three long paragraphs. -/
def exSelP : Node := .elem "p" [] [.text "The first paragraph of body text used here."]

/-- The other two paragraphs of the selection scenario. -/
def exSelP2 : Node := .elem "p" [] [.text "The second paragraph of body text, also long."]

/-- The third paragraph of the selection scenario. -/
def exSelP3 : Node := .elem "p" [] [.text "The third paragraph of body text, also long."]

/-- The parent `div` of the selection scenario. -/
def exSelDiv : Node := .elem "div" [] [exSelP, exSelP2, exSelP3]

/-- The document of the selection scenario. -/
def exSelDoc : Node := .elem "body" [] [exSelDiv]

/-! ## Article grabbing and parse (lib.rs:184-256, 370-416, 665-680) -/

/-- `document.select("*")` count (lib.rs:376-381). -/
def countElems (root : Node) : Nat := root.elemsIn.length

/-- CSS whitespace, used to split the `class` attribute for `.cls`
selector matching. -/
def isCssWS (c : Char) : Bool :=
  c = ' ' || c = '\t' || c = '\n' || c = '\r' || c = '\x0c'

/-- Does the element's class list contain the word `cls` (CSS class
selector)? -/
def hasClassWord (n : Node) (cls : String) : Bool :=
  match n.attr "class" with
  | some v => (v.split isCssWS).contains cls
  | none => false

/-- First element of the document matching the predicate, in document order
(`document.select(&selector).next()`). -/
def firstMatch (root : Node) (p : Node → Bool) : Option Node := root.elemsIn.find? p

/-- `Readability::fallback_content_selection` (lib.rs:665-680): the fixed
selector list `article`, `main`, `#content`, `.content`, `.entry-content`,
`body`; first selector with a match wins. -/
def fallbackContentSelection (root : Node) : Option Node :=
  (firstMatch root (fun e => e.tagName == "article")).orElse fun _ =>
  (firstMatch root (fun e => e.tagName == "main")).orElse fun _ =>
  (firstMatch root (fun e => e.attr "id" == some "content")).orElse fun _ =>
  (firstMatch root (fun e => hasClassWord e "content")).orElse fun _ =>
  (firstMatch root (fun e => hasClassWord e "entry-content")).orElse fun _ =>
  firstMatch root (fun e => e.tagName == "body")

/-- `Readability::grab_article` (lib.rs:370-416): abort when the element
count exceeds a non-zero `max_elems_to_parse`; otherwise score candidates,
fall back to the fixed selectors when none exist, and relocate the selected
candidate in the document by tag name and normalized inner text. -/
def grabArticle (opts : ReadabilityOptions) (root : Node) : Option Node :=
  if opts.maxElemsToParse > 0 && countElems root > opts.maxElemsToParse then none
  else
    let cands := findAndScoreCandidates opts.flags root
    if cands.isEmpty then fallbackContentSelection root
    else
      match selectBestCandidate root cands with
      | some best =>
        root.elemsIn.find? (fun e =>
          e.tagName == best.tagName && innerText e true == innerText best true)
      | none => none

/-- `Readability::parse` (lib.rs:184-256), restricted to the fields deciding
success: the extracted subtree's normalized text and its byte length. The
metadata, title, excerpt and serialized-HTML computations of `parse` never
affect whether it returns `None`: it returns `None` exactly when
`grab_article` does, or when the text length is below `char_threshold`
(lib.rs:236-241). -/
def parse (opts : ReadabilityOptions) (root : Node) : Option (String × Nat) :=
  match grabArticle opts root with
  | none => none
  | some content =>
    let text := innerText content true
    let len := utf8Len text
    if len < opts.charThreshold then none
    else some (text, len)

/-- A two-element document. -/
def exTinyDoc : Node := .elem "html" [] [.elem "body" [] []]

/-- A document whose only paragraph is too short to score. -/
def exShortDoc : Node := .elem "body" [] [.elem "p" [] [.text "Short"]]

/-! ## Readerable heuristic (`is_probably_readerable`, lib.rs:836-916) -/

/-- The scan state of `is_probably_readerable`: running score, accumulated
text length, and whether the early return has fired. -/
structure RState where
  score : ℚ
  total : Nat
  accepted : Bool
deriving DecidableEq

/-- `element.text().collect::<String>()` (lib.rs:866): concatenation of the
descendant text nodes without separator. -/
def rawText (n : Node) : String := String.join n.texts

/-- The threshold scaling of lib.rs:848-856. -/
def minScoreOf (mcl : Nat) : ℚ :=
  if mcl ≤ 20 then 8 else if mcl ≤ 50 then 20 else if mcl ≤ 100 then 30 else 40

/-- The element-type score of lib.rs:887-902 (`0.5/0.3/0.4` and the div
formulas, modelled as exact rationals). -/
def elementScoreQ (tag : String) (tl : Nat) (mcl : Nat) : ℚ :=
  if tag == "article" then min ((tl : ℚ) * (1 / 2)) 30
  else if tag == "p" then min ((tl : ℚ) * (3 / 10)) 20
  else if tag == "pre" then min ((tl : ℚ) * (2 / 5)) 25
  else if tag == "div" then
    (if mcl ≤ 50 && tl > 20 then min ((tl : ℚ) * (1 / 4)) 15
     else if tl > 80 then min ((tl : ℚ) * (1 / 5)) 15
     else 0)
  else 0

/-- One scanned element of `is_probably_readerable` (lib.rs:865-910): skip
under 10 trimmed bytes; add the length to the running total; penalize
unlikely candidates by 5 and continue; otherwise add the element score and
fire the early return once score and total both pass. -/
def readerableStep (mcl : Nat) (minScore : ℚ) (st : RState) (n : Node) : RState :=
  if st.accepted then st
  else
    let tl := utf8Len (trimStr (rawText n))
    if tl < 10 then st
    else
      let st1 : RState := ⟨st.score, st.total + tl, st.accepted⟩
      let classAndId := ((n.attr "class").getD "") ++ " " ++ ((n.attr "id").getD "")
      if isUnlikelyCandidateStr classAndId then
        ⟨st1.score - 5, st1.total, st1.accepted⟩
      else
        let st2 : RState := ⟨st1.score + elementScoreQ n.tagName tl mcl, st1.total, st1.accepted⟩
        if st2.score > minScore && st2.total ≥ mcl then ⟨st2.score, st2.total, true⟩
        else st2

/-- The scanned elements: a full document pass per selector, in the order
`p`, `pre`, `article`, `div` (lib.rs:859-865). -/
def readerableElems (root : Node) : List Node :=
  (root.elemsIn.filter (fun e => e.tagName == "p"))
  ++ (root.elemsIn.filter (fun e => e.tagName == "pre"))
  ++ (root.elemsIn.filter (fun e => e.tagName == "article"))
  ++ (root.elemsIn.filter (fun e => e.tagName == "div"))

/-- `is_probably_readerable` (lib.rs:836-916). -/
def isProbablyReaderable (opts : ReadabilityOptions) (root : Node) : Bool :=
  let mcl := if opts.charThreshold > 0 then opts.charThreshold else 140
  let minScore := minScoreOf mcl
  let final := (readerableElems root).foldl (readerableStep mcl minScore) ⟨0, 0, false⟩
  final.accepted || (decide (final.score > minScore) && decide (final.total ≥ mcl))

/-- Modelled from the spec (§4.6): the spec's version of the unlikely-element
penalty, in which a penalized element's text length is *excluded* from the
length accounting. The source's `readerableStep` is compared against this. -/
def readerableStepSpec (mcl : Nat) (minScore : ℚ) (st : RState) (n : Node) : RState :=
  if st.accepted then st
  else
    let tl := utf8Len (trimStr (rawText n))
    if tl < 10 then st
    else
      let classAndId := ((n.attr "class").getD "") ++ " " ++ ((n.attr "id").getD "")
      if isUnlikelyCandidateStr classAndId then
        ⟨st.score - 5, st.total, st.accepted⟩
      else
        let st2 : RState := ⟨st.score + elementScoreQ n.tagName tl mcl, st.total + tl, st.accepted⟩
        if st2.score > minScore && st2.total ≥ mcl then ⟨st2.score, st2.total, true⟩
        else st2

/-- Modelled from the spec (§4.6): `is_probably_readerable` with the
excluding step. -/
def isProbablyReaderableSpec (opts : ReadabilityOptions) (root : Node) : Bool :=
  let mcl := if opts.charThreshold > 0 then opts.charThreshold else 140
  let minScore := minScoreOf mcl
  let final := (readerableElems root).foldl (readerableStepSpec mcl minScore) ⟨0, 0, false⟩
  final.accepted || (decide (final.score > minScore) && decide (final.total ≥ mcl))

/-- The penalized element of the C8 scenario: a `popup` div with 30 bytes of
text. -/
def exPopupDiv : Node :=
  .elem "div" [("class", "popup")] [.text "zzzzzzzzzzzzzzzzzzzzzzzzzzzzzz"]

/-- The C8 counterexample document: two 36-byte articles and the 30-byte
popup div, scanned with `char_threshold = 100`. -/
def exReadDoc : Node :=
  .elem "body" []
    [.elem "article" [] [.text "xxxxxxxxxxxxxxxxxxxxxxxxxxxxxxxxxxxx"],
     .elem "article" [] [.text "yyyyyyyyyyyyyyyyyyyyyyyyyyyyyyyyyyyy"],
     exPopupDiv]

/-- Options putting the readerable scan in the `min_content_length = 100`
bracket. -/
def exReadOpts : ReadabilityOptions := { defaultOptions with charThreshold := 100 }

/-! ## Construction never fails (C9, lib.rs:59-67 and 158-181) -/

/-- `ReadabilityError` (lib.rs:59-67). -/
inductive ReadabilityError where
  | invalidHtml
  | noContent
  | parseFailure (msg : String)
deriving DecidableEq

/-- The parser state built by `Readability::new` (lib.rs:147-174); the
document field holds the externally-parsed tree. -/
structure Readability where
  document : Node
  options : ReadabilityOptions
  baseUri : Option String
  articleTitle : Option String
  articleByline : Option String
  articleDir : Option String
  articleSiteName : Option String
  metadata : List (String × String)
deriving DecidableEq

/-- `Readability::new` (lib.rs:160-174): unconditionally returns `Ok`; no
`ReadabilityError` value is ever constructed anywhere in the crate. -/
def Readability.new (doc : Node) (opts : Option ReadabilityOptions) :
    Except ReadabilityError Readability :=
  .ok { document := doc, options := opts.getD defaultOptions, baseUri := none,
        articleTitle := none, articleByline := none, articleDir := none,
        articleSiteName := none, metadata := [] }

/-- The C9 claim as a proposition: for some input, construction reports a
malformed-input error. -/
def ClaimMalformedInputFails : Prop :=
  ∃ (doc : Node) (opts : Option ReadabilityOptions) (e : ReadabilityError),
    Readability.new doc opts = .error e

/-! ## The score tie of C7 (lib.rs:565-568, 598-603) -/

/-- First tied `div` of the C7 failing input. -/
def exTieDiv1 : Node :=
  .elem "div" [] [.elem "p" [] [.text "aaaaaaaaaaaaaaaaaaaaaaaaaaaaaa"]]

/-- Second tied `div`: same byte length, different text. -/
def exTieDiv2 : Node :=
  .elem "div" [] [.elem "p" [] [.text "bbbbbbbbbbbbbbbbbbbbbbbbbbbbbb"]]

/-- The C7 failing input: a document with two equal-scoring candidates whose
texts differ. -/
def exTieDoc : Node := .elem "body" [] [exTieDiv1, exTieDiv2]

/-! ## Theorems

The theorems settling the claims, with their helper lemmas and witnesses. -/

/-! ### Lemmas about `normLoop` and `trimChars` -/

theorem normLoop_mem_ws : ∀ (l : List Char) (b : Bool),
    ∀ c ∈ normLoop l b, isWS c = true → c = ' ' := by
  intro l
  induction l with
  | nil => intro b c hc; simp [normLoop] at hc
  | cons a rest ih =>
    intro b c hc hws
    by_cases ha : isWS a
    · cases b with
      | true =>
        simp only [normLoop, ha, if_true] at hc
        exact ih true c hc hws
      | false =>
        simp only [normLoop, ha, if_true, if_false] at hc
        rcases List.mem_cons.mp hc with h | h
        · exact h
        · exact ih true c h hws
    · simp only [normLoop, ha, if_false] at hc
      rcases List.mem_cons.mp hc with h | h
      · subst h; simp [ha] at hws
      · exact ih false c h hws

theorem normLoop_true_head : ∀ l : List Char,
    (normLoop l true).head?.all (fun c => !isWS c) = true := by
  intro l
  induction l with
  | nil => simp [normLoop]
  | cons a rest ih =>
    by_cases ha : isWS a
    · simpa [normLoop, ha] using ih
    · simp [normLoop, ha]

theorem normLoop_chain : ∀ (l : List Char) (b : Bool),
    NoTwoWS (normLoop l b) := by
  intro l
  induction l with
  | nil => intro b; simp [normLoop, NoTwoWS]
  | cons a rest ih =>
    intro b
    by_cases ha : isWS a
    · cases b with
      | true => simpa [normLoop, ha] using ih true
      | false =>
        have heq : normLoop (a :: rest) false = ' ' :: normLoop rest true := by
          simp [normLoop, ha]
        rw [NoTwoWS, heq, List.chain'_cons']
        refine ⟨?_, ih true⟩
        intro y hy
        right
        have h := normLoop_true_head rest
        rw [Option.mem_def] at hy
        rw [hy, Option.all_some] at h
        simpa using h
    · have heq : normLoop (a :: rest) b = a :: normLoop rest false := by
        simp [normLoop, ha]
      rw [NoTwoWS, heq, List.chain'_cons']
      refine ⟨?_, ih false⟩
      intro y _
      left
      simpa using ha

theorem head?_dropWhile_all (p : Char → Bool) : ∀ l : List Char,
    (l.dropWhile p).head?.all (fun c => !p c) = true := by
  intro l
  induction l with
  | nil => simp
  | cons a rest ih =>
    by_cases ha : p a
    · simpa [List.dropWhile, ha] using ih
    · simp [List.dropWhile, ha]

theorem dropWhile_eq_self_of_head (p : Char → Bool) (l : List Char)
    (h : l.head?.all (fun c => !p c) = true) : l.dropWhile p = l := by
  cases l with
  | nil => simp
  | cons a rest =>
    simp only [List.head?_cons, Option.all_some] at h
    simp only [List.dropWhile]
    rw [Bool.not_eq_true'] at h
    simp [h]

theorem mem_trimChars {l : List Char} {c : Char} (h : c ∈ trimChars l) : c ∈ l := by
  unfold trimChars at h
  rw [List.mem_reverse] at h
  have h1 := (List.dropWhile_sublist isWS).mem h
  rw [List.mem_reverse] at h1
  exact (List.dropWhile_sublist isWS).mem h1

theorem chain'_reverse_self {R : Char → Char → Prop}
    (hsym : ∀ a b, R a b → R b a) {l : List Char}
    (h : List.Chain' R l) : List.Chain' R l.reverse :=
  List.chain'_reverse.mpr (h.imp fun {a b} hab => hsym a b hab)

theorem trimChars_chain {l : List Char} (h : NoTwoWS l) : NoTwoWS (trimChars l) := by
  unfold NoTwoWS at h ⊢
  have hsym : ∀ a b : Char, (isWS a = false ∨ isWS b = false) →
      (isWS b = false ∨ isWS a = false) := fun a b hab => hab.elim Or.inr Or.inl
  have h1 := h.suffix (List.dropWhile_suffix isWS)
  have h2 := chain'_reverse_self hsym h1
  have h3 := h2.suffix (List.dropWhile_suffix isWS)
  exact chain'_reverse_self hsym h3

theorem trimChars_getLast_all (l : List Char) :
    (trimChars l).getLast?.all (fun c => !isWS c) = true := by
  unfold trimChars
  rw [List.getLast?_reverse]
  exact head?_dropWhile_all isWS _

theorem trimChars_head_all (l : List Char) :
    (trimChars l).head?.all (fun c => !isWS c) = true := by
  unfold trimChars
  rw [List.head?_reverse]
  cases hxl : ((l.dropWhile isWS).reverse.dropWhile isWS).getLast? with
  | none => simp
  | some y =>
    obtain ⟨a, ha⟩ := List.dropWhile_suffix (l := (l.dropWhile isWS).reverse) isWS
    have h1 : ((l.dropWhile isWS).reverse).getLast? = some y := by
      rw [← ha, List.getLast?_append, hxl]; rfl
    rw [List.getLast?_reverse] at h1
    have h2 := head?_dropWhile_all isWS l
    rw [h1, Option.all_some] at h2
    simpa using h2

theorem normLoop_true_eq_false {l : List Char}
    (h : l.head?.all (fun c => !isWS c) = true) :
    normLoop l true = normLoop l false := by
  cases l with
  | nil => rfl
  | cons a rest =>
    rw [List.head?_cons, Option.all_some] at h
    rw [Bool.not_eq_true'] at h
    simp [normLoop, h]

theorem normLoop_eq_self : ∀ l : List Char,
    (∀ c ∈ l, isWS c = true → c = ' ') → NoTwoWS l → normLoop l false = l := by
  intro l
  induction l with
  | nil => intro _ _; rfl
  | cons a rest ih =>
    intro hmem hchain
    rw [NoTwoWS, List.chain'_cons'] at hchain
    by_cases ha : isWS a
    · have ha' : a = ' ' := hmem a (List.mem_cons_self a rest) ha
      have heq : normLoop (a :: rest) false = ' ' :: normLoop rest true := by
        simp [normLoop, ha]
      have hresthead : rest.head?.all (fun c => !isWS c) = true := by
        cases hr : rest.head? with
        | none => rfl
        | some y =>
          have := hchain.1 y hr
          rcases this with hy | hy
          · rw [ha] at hy; cases hy
          · rw [Option.all_some, hy]; rfl
      rw [heq, normLoop_true_eq_false hresthead,
        ih (fun c hc => hmem c (List.mem_cons_of_mem a hc)) hchain.2, ha']
    · have heq : normLoop (a :: rest) false = a :: normLoop rest false := by
        simp [normLoop, ha]
      rw [heq, ih (fun c hc => hmem c (List.mem_cons_of_mem a hc)) hchain.2]

theorem trimChars_eq_self {l : List Char}
    (h1 : l.head?.all (fun c => !isWS c) = true)
    (h2 : l.getLast?.all (fun c => !isWS c) = true) : trimChars l = l := by
  unfold trimChars
  rw [dropWhile_eq_self_of_head _ l h1]
  have h3 : l.reverse.head?.all (fun c => !isWS c) = true := by
    rw [List.head?_reverse]; exact h2
  rw [dropWhile_eq_self_of_head _ _ h3, List.reverse_reverse]

theorem normalizeWhitespace_eq_self {l : List Char} :
    normalizeWhitespace (normalizeWhitespace l) = normalizeWhitespace l := by
  have hchain : NoTwoWS (normalizeWhitespace l) := trimChars_chain (normLoop_chain l false)
  have hmem : ∀ c ∈ normalizeWhitespace l, isWS c = true → c = ' ' :=
    fun c hc => normLoop_mem_ws l false c (mem_trimChars hc)
  show trimChars (normLoop (normalizeWhitespace l) false) = normalizeWhitespace l
  rw [normLoop_eq_self _ hmem hchain]
  exact trimChars_eq_self (trimChars_head_all (normLoop l false))
    (trimChars_getLast_all (normLoop l false))

/-- **C10**: `utils::normalize_whitespace` is idempotent, and its output never
contains two consecutive whitespace characters, nor any leading or trailing
whitespace character. -/
theorem normalize_whitespace_idempotent (s : String) :
    normalizeWhitespaceStr (normalizeWhitespaceStr s) = normalizeWhitespaceStr s ∧
    NoTwoWS (normalizeWhitespaceStr s).data ∧
    (normalizeWhitespaceStr s).data.head?.all (fun c => !isWS c) = true ∧
    (normalizeWhitespaceStr s).data.getLast?.all (fun c => !isWS c) = true := by
  refine ⟨?_, ?_, ?_, ?_⟩
  · exact congrArg (fun l => (⟨l⟩ : String)) normalizeWhitespace_eq_self
  · exact trimChars_chain (normLoop_chain s.data false)
  · exact trimChars_head_all _
  · exact trimChars_getLast_all _

/-- **C5**: `is_unlikely_candidate` returns true iff the string matches the
unlikely-candidate vocabulary and does not match the override vocabulary; the
override takes precedence, so `"article-comment"` — which matches the
unlikely vocabulary through `"comment"` — is not classified as an unlikely
candidate because it also matches `"article"` in the override set. -/
theorem is_unlikely_candidate_override (s : String) :
    (isUnlikelyCandidateStr s = true ↔
      (strMatch unlikelyPats s = true ∧ ¬ strMatch okMaybePats s = true)) ∧
    strMatch unlikelyPats "article-comment" = true ∧
    strMatch okMaybePats "article-comment" = true ∧
    isUnlikelyCandidateStr "article-comment" = false := by
  refine ⟨?_, by decide, by decide, by decide⟩
  unfold isUnlikelyCandidateStr
  rw [Bool.and_eq_true, Bool.not_eq_true']
  exact Iff.intro (fun h => ⟨h.1, by simp [h.2]⟩) (fun h => ⟨h.1, by simp [h.2]⟩)

/-- **C4**: every candidate entry's initial score is base 1 plus the tag-type
adjustment (+5 div; +3 pre/td/blockquote; −3 address/ol/ul/dl/dd/dt/li/form;
−5 headings/th; 0 otherwise) plus a class weight in which the class and id
attributes each independently contribute −25 on negative indicators and +25
on positive indicators, and which is 0 whenever `weight_classes` is
disabled. -/
theorem initialize_candidate_score_spec (flags : ReadabilityFlags) (n : Node) :
    initializeCandidateScore flags n
      = 1 + tagScoreAdjust (upperStr n.tagName) + getClassWeight flags n
  ∧ (flags.weightClasses = false → getClassWeight flags n = 0)
  ∧ (flags.weightClasses = true →
      getClassWeight flags n = attrWeight (n.attr "class") + attrWeight (n.attr "id"))
  ∧ (∀ v, attrWeight (some v) =
      (if hasNegativeIndicators v then (-25 : ℚ) else 0) +
      (if hasPositiveIndicators v then (25 : ℚ) else 0))
  ∧ tagScoreAdjust "DIV" = 5
  ∧ (∀ t, t ∈ (["PRE", "TD", "BLOCKQUOTE"] : List String) → tagScoreAdjust t = 3)
  ∧ (∀ t, t ∈ (["ADDRESS", "OL", "UL", "DL", "DD", "DT", "LI", "FORM"] : List String) →
      tagScoreAdjust t = -3)
  ∧ (∀ t, t ∈ (["H1", "H2", "H3", "H4", "H5", "H6", "TH"] : List String) →
      tagScoreAdjust t = -5)
  ∧ (∀ t, t ≠ "DIV" → t ∉ (["PRE", "TD", "BLOCKQUOTE"] : List String) →
      t ∉ (["ADDRESS", "OL", "UL", "DL", "DD", "DT", "LI", "FORM"] : List String) →
      t ∉ (["H1", "H2", "H3", "H4", "H5", "H6", "TH"] : List String) →
      tagScoreAdjust t = 0) := by
  refine ⟨rfl, ?_, ?_, fun v => rfl, by decide, ?_, ?_, ?_, ?_⟩
  · intro h; simp [getClassWeight, h]
  · intro h; simp [getClassWeight, h]
  · intro t ht; fin_cases ht <;> decide
  · intro t ht; fin_cases ht <;> decide
  · intro t ht; fin_cases ht <;> decide
  · intro t h1 h2 h3 h4
    simp only [tagScoreAdjust, if_neg h1, if_neg h2, if_neg h3, if_neg h4]

/-- Witness for C4 at a concrete element: a `div` with a positive class and
disabled versus enabled class weighting. -/
theorem initialize_candidate_score_spec_witness :
    getClassWeight ⟨true, false, true⟩
      (Node.elem "div" [("class", "article")] []) = 0 ∧
    tagScoreAdjust "TD" = 3 ∧ tagScoreAdjust "OL" = -3 ∧
    tagScoreAdjust "TH" = -5 ∧ tagScoreAdjust "SPAN" = 0 := by
  refine ⟨?_, ?_, ?_, ?_, ?_⟩
  · exact (initialize_candidate_score_spec ⟨true, false, true⟩
      (Node.elem "div" [("class", "article")] [])).2.1 rfl
  · exact (initialize_candidate_score_spec defaultFlags (Node.text "")).2.2.2.2.2.1
      "TD" (by decide)
  · exact (initialize_candidate_score_spec defaultFlags (Node.text "")).2.2.2.2.2.2.1
      "OL" (by decide)
  · exact (initialize_candidate_score_spec defaultFlags (Node.text "")).2.2.2.2.2.2.2.1
      "TH" (by decide)
  · exact (initialize_candidate_score_spec defaultFlags (Node.text "")).2.2.2.2.2.2.2.2
      "SPAN" (by decide) (by decide) (by decide) (by decide)

/-! ### Candidate map lemmas -/

theorem candScore_append_of_isSome {m : CandMap} {i : Nat}
    (h : (candScore m i).isSome) (l : CandMap) :
    candScore (m ++ l) i = candScore m i := by
  unfold candScore at *
  rw [List.find?_append]
  cases hf : m.find? (fun e => e.1 == i) with
  | none => rw [hf] at h; simp at h
  | some e => simp [hf]

theorem candScore_append_single_of_none {m : CandMap} {i : Nat}
    (h : candScore m i = none) (j : Nat) (n : Node) (s : ℚ) :
    candScore (m ++ [(j, n, s)]) i = if j = i then some s else none := by
  unfold candScore at *
  rw [List.find?_append]
  cases hf : m.find? (fun e => e.1 == i) with
  | none =>
    by_cases hj : j = i
    · simp [hj]
    · have hj' : (j == i) = false := by simpa using hj
      simp [List.find?, hj', hj]
  | some e => rw [hf] at h; simp at h

theorem candScore_update_self (m : CandMap) (i : Nat) (f : ℚ → ℚ) :
    candScore (updateCand m i f) i = (candScore m i).map f := by
  induction m with
  | nil => rfl
  | cons e rest ih =>
    have ih' := ih
    simp only [candScore, updateCand] at ih'
    by_cases he : (e.1 == i) = true
    · simp [updateCand, candScore, List.find?, he]
    · have he' : (e.1 == i) = false := by simpa using he
      simpa [updateCand, candScore, List.find?, he'] using ih'

theorem candScore_update_other {i j : Nat} (hne : j ≠ i) (m : CandMap)
    (f : ℚ → ℚ) : candScore (updateCand m j f) i = candScore m i := by
  induction m with
  | nil => rfl
  | cons e rest ih =>
    have ih' := ih
    simp only [candScore, updateCand] at ih'
    by_cases he : (e.1 == j) = true
    · have he1 : e.1 = j := by simpa using he
      have he2 : (e.1 == i) = false := by simp [he1, hne]
      simpa [updateCand, candScore, List.find?, he, he2] using ih'
    · have he' : (e.1 == j) = false := by simpa using he
      by_cases hei : (e.1 == i) = true
      · simp [updateCand, candScore, List.find?, he', hei]
      · have hei' : (e.1 == i) = false := by simpa using hei
        simpa [updateCand, candScore, List.find?, he', hei'] using ih'

/-- **C1**: a qualifying leaf (tag `p`/`td`/`pre`, trimmed normalized text at
least 25 bytes, not skipped by the strip-unlikelys checks) contributes a
content score of `1 + commas + min(len/100, 3)`, added divided by 1 to the
parent's running score and divided by 2 to the grandparent's running score,
with divisor `level * 3` for any level beyond two. A candidate absent from
the map starts from its initial score. -/
theorem score_step_propagates (flags : ReadabilityFlags) (m : CandMap)
    (c : Ctx) (pid gid : Nat) (p g : Node)
    (hp : c.parent = some (pid, p)) (hg : c.gp = some (gid, g))
    (hlen : ¬ utf8Len (trimStr (innerText c.node true)) < 25)
    (hpu : (flags.stripUnlikelys && isUnlikelyElem p) = false)
    (hgu : (flags.stripUnlikelys && isUnlikelyElem g) = false)
    (hne : pid ≠ gid) :
    leafContentScore c.node
        = 1 + (countCommas (innerText c.node true) : ℚ)
          + min ((utf8Len (trimStr (innerText c.node true)) : ℚ) / 100) 3
    ∧ candScore (scoreStep flags m c) pid
        = some (((candScore m pid).getD (initializeCandidateScore flags p))
            + leafContentScore c.node / divisorQ 1)
    ∧ candScore (scoreStep flags m c) gid
        = some (((candScore m gid).getD (initializeCandidateScore flags g))
            + leafContentScore c.node / divisorQ 2)
    ∧ divisorQ 1 = 1 ∧ divisorQ 2 = 2
    ∧ (∀ L, 2 < L → divisorQ L = (L : ℚ) * 3) := by
  have hanc : scoreAncestors flags c = some [(pid, p, 1), (gid, g, 2)] := by
    simp [scoreAncestors, hp, hg, hpu, hgu]
  have hstep : scoreStep flags m c =
      updateCand
        (updateCand
          ((if (candScore
              (if (candScore m pid).isSome then m
                else m ++ [(pid, p, initializeCandidateScore flags p)]) gid).isSome
            then (if (candScore m pid).isSome then m
                else m ++ [(pid, p, initializeCandidateScore flags p)])
            else (if (candScore m pid).isSome then m
                else m ++ [(pid, p, initializeCandidateScore flags p)])
              ++ [(gid, g, initializeCandidateScore flags g)]))
          pid (fun s => s + leafContentScore c.node / divisorQ 1))
        gid (fun s => s + leafContentScore c.node / divisorQ 2) := by
    simp only [scoreStep, if_neg hlen, hanc, List.foldl_cons, List.foldl_nil]
  set m0 : CandMap :=
    if (candScore m pid).isSome then m
      else m ++ [(pid, p, initializeCandidateScore flags p)] with hm0
  set m1 : CandMap :=
    if (candScore m0 gid).isSome then m0
      else m0 ++ [(gid, g, initializeCandidateScore flags g)] with hm1
  have h0pid : candScore m0 pid
      = some ((candScore m pid).getD (initializeCandidateScore flags p)) := by
    rw [hm0]
    cases hc : candScore m pid with
    | some s => simp [hc]
    | none =>
      simp only [hc, Option.isSome_none, Bool.false_eq_true, if_false]
      rw [candScore_append_single_of_none hc, if_pos rfl]
      rfl
  have h0gid : candScore m0 gid = candScore m gid := by
    rw [hm0]
    cases hc : candScore m pid with
    | some s => simp [hc]
    | none =>
      simp only [hc, Option.isSome_none, Bool.false_eq_true, if_false]
      cases hcg : candScore m gid with
      | some s =>
        rw [candScore_append_of_isSome (by simp [hcg])]
        exact hcg
      | none =>
        rw [candScore_append_single_of_none hcg, if_neg hne]
  have h1gid : candScore m1 gid
      = some ((candScore m gid).getD (initializeCandidateScore flags g)) := by
    rw [hm1]
    cases hc : candScore m0 gid with
    | some s => simp [hc, ← h0gid]
    | none =>
      simp only [hc, Option.isSome_none, Bool.false_eq_true, if_false]
      rw [candScore_append_single_of_none hc, if_pos rfl, ← h0gid, hc]
      rfl
  have h1pid : candScore m1 pid
      = some ((candScore m pid).getD (initializeCandidateScore flags p)) := by
    rw [hm1]
    cases hc : candScore m0 gid with
    | some s => simp [hc, h0pid]
    | none =>
      simp only [hc, Option.isSome_none, Bool.false_eq_true, if_false]
      rw [candScore_append_of_isSome (by simp [h0pid])]
      exact h0pid
  refine ⟨rfl, ?_, ?_, rfl, rfl, fun L hL => ?_⟩
  · rw [hstep, candScore_update_other (Ne.symm hne),
      candScore_update_self, h1pid]
    rfl
  · rw [hstep, candScore_update_self,
      candScore_update_other hne, h1gid]
    rfl
  · have hL1 : L ≠ 1 := by omega
    have hL2 : L ≠ 2 := by omega
    simp [divisorQ, hL1, hL2]

/-- Witness for C1: the concrete leaf's score propagates to its parent
(divided by 1) and grandparent (divided by 2). -/
theorem score_step_propagates_witness :
    candScore (scoreStep defaultFlags [] exCtx) 1
      = some (((candScore ([] : CandMap) 1).getD
            (initializeCandidateScore defaultFlags exParent))
          + leafContentScore exCtx.node / divisorQ 1)
  ∧ candScore (scoreStep defaultFlags [] exCtx) 0
      = some (((candScore ([] : CandMap) 0).getD
            (initializeCandidateScore defaultFlags exGP))
          + leafContentScore exCtx.node / divisorQ 2) := by
  have h := score_step_propagates defaultFlags [] exCtx 1 0 exParent exGP rfl rfl
    (by decide) (by decide) (by decide) (by decide)
  exact ⟨h.2.1, h.2.2.1⟩

/-! ## Link-density scaling (C2) -/

/-- **C2** (amended): after the scoring loop, every candidate's accumulated
score is multiplied by `1 − link_density` — the configured
`link_density_modifier` is not applied — and a subtree with no text has link
density 0. -/
theorem find_and_score_link_density (flags : ReadabilityFlags) (root : Node) :
    (∀ e, e ∈ findAndScoreCandidates flags root →
      ∃ s₀, (e.1, e.2.1, s₀) ∈ rawCandidates flags root ∧
        e.2.2 = s₀ * (1 - getLinkDensity e.2.1)) ∧
    (∀ n : Node, utf8Len (innerText n false) = 0 → getLinkDensity n = 0) := by
  constructor
  · intro e he
    unfold findAndScoreCandidates at he
    obtain ⟨a, ha, hae⟩ := List.mem_map.mp he
    subst hae
    exact ⟨a.2.2, ha, rfl⟩
  · intro n hn
    unfold getLinkDensity
    simp [hn]

/-- Counterexample for C2 as stated: with `link_density_modifier = 2` the
code's final scaling differs from the spec's `1 − density × modifier`
scaling, because the code never applies the modifier. -/
theorem find_and_score_modifier_counterexample :
    findAndScoreCandidates exModOpts.flags exLinkDoc
      ≠ findAndScoreCandidatesSpec exModOpts exLinkDoc := by
  with_unfolding_all decide

set_option maxRecDepth 100000 in
/-- Witness for C2: the `div` candidate's raw score 73/10 is scaled by
`1 − 5/36` to 2263/360, and an empty subtree has link density 0. -/
theorem find_and_score_link_density_witness :
    (∃ s₀, ((1 : Nat), exDivNode, s₀) ∈ rawCandidates defaultFlags exLinkDoc ∧
      ((2263 : ℚ) / 360) = s₀ * (1 - getLinkDensity exDivNode)) ∧
    getLinkDensity (Node.elem "div" [] []) = 0 := by
  constructor
  · exact (find_and_score_link_density defaultFlags exLinkDoc).1
      (1, exDivNode, 2263 / 360) (by with_unfolding_all decide)
  · exact (find_and_score_link_density defaultFlags exLinkDoc).2
      (Node.elem "div" [] []) (by decide)

/-- **C3**: selection promotes from the top candidate to its parent exactly
when the parent's text is more than double the candidate's, the parent has no
nav/aside/header/footer or sidebar/navigation-classed descendant, and the
parent's recomputed simplified score strictly exceeds 0.75 of the top
candidate's score; it never promotes to a parent whose recomputed score is at
most 0.75 of the top score. -/
theorem select_best_promotion (root : Node) (cands : CandMap)
    (best : Nat × Node × ℚ) (rest : CandMap) (pid : Nat) (p : Node)
    (hsort : sortCands cands = best :: rest)
    (hparent : parentOf root best.1 = some (pid, p)) :
    (calculateCandidateScore p ≤ best.2.2 * (3 / 4 : ℚ) →
      selectBestCandidate root cands = some best.2.1)
  ∧ (hasNavDescendant p = false →
      utf8Len (innerText p false) > utf8Len (innerText best.2.1 false) * 2 →
      calculateCandidateScore p > best.2.2 * (3 / 4 : ℚ) →
      selectBestCandidate root cands = some p)
  ∧ (selectBestCandidate root cands = some best.2.1 ∨
      (selectBestCandidate root cands = some p
        ∧ hasNavDescendant p = false
        ∧ utf8Len (innerText p false) > utf8Len (innerText best.2.1 false) * 2
        ∧ calculateCandidateScore p > best.2.2 * (3 / 4 : ℚ))) := by
  have hsel : selectBestCandidate root cands =
      (if hasNavDescendant p then some best.2.1
       else if utf8Len (innerText p false) > utf8Len (innerText best.2.1 false) * 2 then
         if calculateCandidateScore p > best.2.2 * (3 / 4 : ℚ) then some p
         else some best.2.1
       else some best.2.1) := by
    unfold selectBestCandidate
    rw [hsort]
    dsimp only
    rw [hparent]
  refine ⟨?_, ?_, ?_⟩
  · intro hle
    rw [hsel]
    have hngt : ¬ calculateCandidateScore p > best.2.2 * (3 / 4 : ℚ) := not_lt.mpr hle
    by_cases hnav : hasNavDescendant p
    · simp [hnav]
    · by_cases hlen : utf8Len (innerText p false) > utf8Len (innerText best.2.1 false) * 2
      · simp [hnav, hlen, hngt]
      · simp [hnav, hlen]
  · intro hnav hlen hsc
    rw [hsel]
    simp [hnav, hlen, hsc]
  · rw [hsel]
    by_cases hnav : hasNavDescendant p
    · left; simp [hnav]
    · by_cases hlen : utf8Len (innerText p false) > utf8Len (innerText best.2.1 false) * 2
      · by_cases hsc : calculateCandidateScore p > best.2.2 * (3 / 4 : ℚ)
        · right
          refine ⟨?_, by simpa using hnav, hlen, hsc⟩
          simp [hnav, hlen, hsc]
        · left; simp [hnav, hlen, hsc]
      · left; simp [hnav, hlen]

set_option maxRecDepth 100000 in
/-- Witness for C3: with a low-scoring top candidate the selection promotes
to the parent `div`; with a high-scoring top candidate it does not. -/
theorem select_best_promotion_witness :
    selectBestCandidate exSelDoc [(2, exSelP, 1)] = some exSelDiv ∧
    selectBestCandidate exSelDoc [(2, exSelP, 100)] = some exSelP := by
  constructor
  · exact (select_best_promotion exSelDoc [(2, exSelP, 1)] (2, exSelP, 1) []
      1 exSelDiv (by with_unfolding_all decide) (by decide)).2.1
      (by decide) (by decide) (by with_unfolding_all decide)
  · exact (select_best_promotion exSelDoc [(2, exSelP, 100)] (2, exSelP, 100) []
      1 exSelDiv (by with_unfolding_all decide) (by decide)).1
      (by with_unfolding_all decide)

/-- **C6**: `parse` returns `None` whenever the element count exceeds a
non-zero `max_elems_to_parse` ceiling, and whenever the extracted content's
text length is below `char_threshold`. -/
theorem parse_none_conditions (opts : ReadabilityOptions) (root : Node) :
    (0 < opts.maxElemsToParse → countElems root > opts.maxElemsToParse →
      parse opts root = none)
  ∧ (∀ c, grabArticle opts root = some c →
      utf8Len (innerText c true) < opts.charThreshold →
      parse opts root = none) := by
  constructor
  · intro h1 h2
    have hcond : (opts.maxElemsToParse > 0 && countElems root > opts.maxElemsToParse) = true := by
      simp only [Bool.and_eq_true, decide_eq_true_eq]
      exact ⟨h1, h2⟩
    unfold parse grabArticle
    rw [if_pos hcond]
  · intro c hc hlen
    unfold parse
    rw [hc]
    simp only [if_pos hlen]

/-- Witness for C6: a 2-element document with `max_elems_to_parse = 1` parses
to `None`, and a 5-byte body (selected via the `body` fallback) is below the
default 25-byte threshold, so `parse` returns `None`. -/
theorem parse_none_conditions_witness :
    parse { defaultOptions with maxElemsToParse := 1 } exTinyDoc = none ∧
    parse defaultOptions exShortDoc = none := by
  constructor
  · exact (parse_none_conditions { defaultOptions with maxElemsToParse := 1 }
      exTinyDoc).1 (by decide) (by decide)
  · exact (parse_none_conditions defaultOptions exShortDoc).2
      (Node.elem "body" [] [Node.elem "p" [] [Node.text "Short"]])
      (by with_unfolding_all decide) (by decide)

/-- **C8** (amended): a scanned element with under 10 trimmed bytes is
skipped entirely; an element matching the unlikely-candidate pattern has 5
subtracted from the running score, but its text length is still *included*
in the accumulated total used for the minimum-content-length test. -/
theorem readerable_step_spec (mcl : Nat) (minScore : ℚ) (st : RState)
    (n : Node) (hacc : st.accepted = false) :
    (utf8Len (trimStr (rawText n)) < 10 → readerableStep mcl minScore st n = st)
  ∧ (¬ utf8Len (trimStr (rawText n)) < 10 →
      isUnlikelyCandidateStr (((n.attr "class").getD "") ++ " " ++ ((n.attr "id").getD "")) = true →
      readerableStep mcl minScore st n
        = ⟨st.score - 5, st.total + utf8Len (trimStr (rawText n)), st.accepted⟩) := by
  constructor
  · intro hshort
    unfold readerableStep
    rw [hacc]
    simp only [Bool.false_eq_true, if_false, if_pos hshort]
  · intro hlong hun
    unfold readerableStep
    rw [hacc]
    simp [Bool.false_eq_true, if_false, if_neg hlong, hun]

/-- Witness for C8: a 5-byte paragraph is skipped; the popup div is
penalized 5 while its 30 bytes still enter the total. -/
theorem readerable_step_spec_witness :
    readerableStep 100 30 ⟨0, 0, false⟩ (Node.elem "p" [] [Node.text "tiny"])
      = ⟨0, 0, false⟩ ∧
    readerableStep 100 30 ⟨0, 0, false⟩ exPopupDiv = ⟨0 - 5, 0 + 30, false⟩ := by
  constructor
  · exact (readerable_step_spec 100 30 ⟨0, 0, false⟩
      (Node.elem "p" [] [Node.text "tiny"]) rfl).1 (by decide)
  · exact (readerable_step_spec 100 30 ⟨0, 0, false⟩ exPopupDiv rfl).2
      (by decide) (by decide)

/-- Counterexample for C8 as stated: the code counts the penalized popup
div's 30 bytes toward the total (36+36+30 = 102 ≥ 100, score 31 > 30, so it
accepts), while the spec's excluding version reaches only 72 < 100 and
rejects. -/
theorem readerable_exclusion_counterexample :
    isProbablyReaderable exReadOpts exReadDoc = true ∧
    isProbablyReaderableSpec exReadOpts exReadDoc = false := by
  constructor <;> with_unfolding_all decide

/-- Counterexample for C9 as stated (its negation): no input makes
`Readability::new` report an error. -/
theorem new_never_fails_counterexample : ¬ ClaimMalformedInputFails := by
  rintro ⟨doc, opts, e, h⟩
  simp [Readability.new] at h

/-- **C9** (amended): `Readability::new` succeeds on every input; the
malformed-input error variant exists but is never produced, because the
external HTML parser's error recovery always yields a document. -/
theorem new_always_ok (doc : Node) (opts : Option ReadabilityOptions) :
    ∃ r, Readability.new doc opts = .ok r := ⟨_, rfl⟩

/-- **C7** (supporting theorem): on the failing input the two `div`
candidates end with exactly equal final scores but different inner text, so
the sort comparator cannot separate them — the selected winner is decided by
the iteration order of the pointer-keyed `HashMap`, which Rust randomizes
per call, not by document order. -/
theorem tie_scores_equal :
    ∃ s : ℚ, ((1 : Nat), exTieDiv1, s) ∈ findAndScoreCandidates defaultFlags exTieDoc
      ∧ ((3 : Nat), exTieDiv2, s) ∈ findAndScoreCandidates defaultFlags exTieDoc
      ∧ exTieDiv1 ≠ exTieDiv2
      ∧ innerText exTieDiv1 true ≠ innerText exTieDiv2 true := by
  refine ⟨73 / 10, ?_, ?_, by decide, by decide⟩
  · with_unfolding_all decide
  · with_unfolding_all decide

end ReadabilityRust
